import Mathlib

/-!
Verification development for the spatial population reach engine of this
repository (`src/etl/population/population_reach.py` and
`src/etl/ads/consolidate_ads.py`).

The pure numeric and list-level semantics of the pipeline are embedded as
executable Lean definitions.  Geometric primitives (polygon areas, H3 cell
assignment, k-ring adjacency) are passed in as explicit data or function
parameters, mirroring the values the external libraries (shapely, h3)
return.  Pandas floating-point cells are modelled by `ℚ`, with an explicit
NaN / infinity wrapper `FVal` at the one place where the code can produce
them; `astype(int)` is modelled by truncation toward zero and pandas
`Series.round` by round-half-to-even, matching numpy semantics.
-/

/-- Numpy `astype(int)` on a float column: truncation toward zero. -/
def truncToZero (q : ℚ) : ℤ := if 0 ≤ q then ⌊q⌋ else ⌈q⌉

/-- Numpy / pandas `Series.round()`: round half to even, as numpy does. -/
def roundHalfEven (q : ℚ) : ℤ :=
  if q - (⌊q⌋ : ℚ) < 1/2 then ⌊q⌋
  else if (1 : ℚ)/2 < q - (⌊q⌋ : ℚ) then ⌊q⌋ + 1
  else if ⌊q⌋ % 2 = 0 then ⌊q⌋ else ⌊q⌋ + 1

/-- Python two-digit zero-padded decimal formatting (the 02d f-string
spec used by the age normalizer). -/
def fmt2 (n : ℤ) : String :=
  if 0 ≤ n ∧ n < 10 then "0" ++ toString n else toString n

/-- A pandas float cell: a finite rational, NaN, or an infinity (the sign of
the infinity is irrelevant everywhere it can arise here, since the area
columns are non-negative). -/
inductive FVal where
  | num (q : ℚ)
  | nan
  | inf
deriving DecidableEq

/-- Whether a float cell holds a finite number. -/
def FVal.isNum : FVal → Bool
  | .num _ => true
  | _ => false

/-- The rational value of a finite float cell (junk value 0 on NaN/inf; every
theorem using it also asserts `isNum` so the junk value carries no weight). -/
def FVal.toRat : FVal → ℚ
  | .num q => q
  | _ => 0

/-- Float division `a / A` as it happens on the pandas area columns:
division by zero produces NaN (for 0/0) or an infinity (for a ≠ 0). -/
def fdiv (a A : ℚ) : FVal :=
  if A = 0 then (if a = 0 then .nan else .inf) else .num (a / A)

/-- Pandas `fillna(0)` on one float cell: NaN becomes 0, infinities stay. -/
def fillna0 : FVal → FVal
  | .nan => .num 0
  | v => v

/-! ### Areal interpolator (`add_intersection_area_proportions`)

One row of `h3_land` after the `gpd.overlay` intersection: an
(H3 cell, census radio) intersection piece together with its projected
area `intersect_area_m2` (computed upstream in the projected CRS after
`buffer(0)`); census radio ids are modelled as `ℕ`. -/
structure IRow where
  h3_index : ℕ
  radio : ℕ
  area : ℚ
deriving DecidableEq

/-- The `prop_to_radio` column of `add_intersection_area_proportions` for one
row of `h3_land`, given the `radio_area_map` dictionary (`none` models a
radio id absent from the map, whose `.map` result is NaN):
`intersect_area_m2 / radio_area_m2` followed by `fillna(0)`. -/
def prop_to_radio (areaOf : ℕ → Option ℚ) (r : IRow) : FVal :=
  fillna0 (match areaOf r.radio with
    | none => .nan
    | some A => fdiv r.area A)

/-! ### Age-bracket normalization (`_normalizar_edad`) -/

/-- A value of the `grupo_edad` column of the trip-legs frame: NaN, a
non-numeric value (on which Python `int()` raises `ValueError`), or a
numeric value. -/
inductive EdadVal where
  | missing
  | nonNumeric
  | val (q : ℚ)
deriving DecidableEq

/-- `_normalizar_edad` from `aggregate_trips_by_h3`: NaN and non-numeric
values map to `"Desconocido"`; a numeric value is truncated by `int()`,
values of 100 and above map to `"100 Y MÁS"`, and any other value `n` maps
to the label built from the two-digit renderings of `n` and `n + 4`. -/
def normalizar_edad : EdadVal → String
  | .missing => "Desconocido"
  | .nonNumeric => "Desconocido"
  | .val q =>
    if 100 ≤ truncToZero q then "100 Y MÁS"
    else fmt2 (truncToZero q) ++ " A " ++ fmt2 (truncToZero q + 4)

/-- The canonical INDEC five-year age brackets: exactly the `tramo_edad`
labels of the sex-ratio table `data_tasas` in `load_ct_population_data`. -/
def tramos_canonicos : List String :=
  ["00 A 04", "05 A 09", "10 A 14", "15 A 19", "20 A 24", "25 A 29",
   "30 A 34", "35 A 39", "40 A 44", "45 A 49", "50 A 54", "55 A 59",
   "60 A 64", "65 A 69", "70 A 74", "75 A 79", "80 A 84", "85 A 89",
   "90 A 94", "95 A 99", "100 Y MÁS"]

/-- `data_tasas` from `load_ct_population_data`: females per 100 males by
age bracket (CABA, census 2022). -/
def data_tasas : List (String × ℤ) :=
  [("00 A 04", 97), ("05 A 09", 97), ("10 A 14", 97), ("15 A 19", 101),
   ("20 A 24", 108), ("25 A 29", 109), ("30 A 34", 108), ("35 A 39", 106),
   ("40 A 44", 110), ("45 A 49", 115), ("50 A 54", 118), ("55 A 59", 123),
   ("60 A 64", 126), ("65 A 69", 137), ("70 A 74", 147), ("75 A 79", 163),
   ("80 A 84", 187), ("85 A 89", 223), ("90 A 94", 290), ("95 A 99", 370),
   ("100 Y MÁS", 557)]

/-! ### Gender/age projector (`load_ct_population_data`) -/

/-- The `hombres` column: `round(total_conteo / (1 + tasa_feminidad/100))`,
with pandas `round` (half to even). -/
def hombres_proj (total tasa : ℤ) : ℤ :=
  roundHalfEven ((total : ℚ) / (1 + (tasa : ℚ) / 100))

/-- The `mujeres` column: `total_conteo - hombres` (never independently
rounded). -/
def mujeres_proj (total tasa : ℤ) : ℤ := total - hombres_proj total tasa

/-! ### Circulation aggregator (`aggregate_trips_by_h3`)

One row of the trip-legs frame `df_etapas`, as it arrives from
`load_trips_data`: `id_tarjeta` and `factor_expansion_viaje` may be NaN
(`none`), the H3 columns are `none` when the coordinate was unmappable,
and the `origen_caba` / `destino_caba` flags are genuine booleans
(`Series.between` never yields NaN).  H3 cell ids are modelled as `ℕ`. -/
structure Etapa where
  id_tarjeta : Option ℕ
  factor_expansion_viaje : Option ℚ
  genero : Option String
  grupo_edad : EdadVal
  origen_h3r9 : Option ℕ
  destino_h3r9 : Option ℕ
  origen_caba : Bool
  destino_caba : Bool
deriving DecidableEq

/-- The trip-legs data frame: its rows, whether the `grupo_edad` and
`genero` columns are present, and the `tramo_edad` column when present
(the per-row `genero` values are only meaningful when `hasGenero`). -/
structure TripsFrame where
  rows : List Etapa
  hasGrupoEdad : Bool
  hasGenero : Bool
  tramoEdad : Option (List String)
deriving DecidableEq

/-- The in-place column assignments `aggregate_trips_by_h3` performs on the
frame it receives: assigning the `tramo_edad` column (normalizing
`grupo_edad` when that column exists, else the constant unknown label)
and, when `genero` is absent, creating it filled with the unknown label. -/
def mutateFrame (f : TripsFrame) : TripsFrame :=
  { rows := if f.hasGenero then f.rows
      else f.rows.map fun r => { r with genero := some "Desconocido" }
    hasGrupoEdad := f.hasGrupoEdad
    hasGenero := true
    tramoEdad := some (if f.hasGrupoEdad
      then f.rows.map fun r => normalizar_edad r.grupo_edad
      else f.rows.map fun _ => "Desconocido") }

/-- One row of the long-format frame `df_etapas_long` after the `in_caba`
filter and the drop of the `in_caba` column. -/
structure Obs where
  h3_index : Option ℕ
  id_tarjeta : ℕ
  factor : ℚ
  genero : Option String
  tramo_edad : String
deriving DecidableEq

/-- One unpivoted side (origin or destination) of one trip leg.  Rows where
`id_tarjeta` or `factor_expansion_viaje` is NaN are the ones removed by the
`dropna` step, and rows whose side is not in CABA are the ones removed by
the `in_caba` filter; both removals are fused here into the `Option`. -/
def mkObs (h3 : Option ℕ) (caba : Bool) (e : Etapa) (t : String) : Option Obs :=
  match e.id_tarjeta, e.factor_expansion_viaje with
  | some i, some q => if caba then some ⟨h3, i, q, e.genero, t⟩ else none
  | _, _ => none

/-- `df_etapas_long` restricted to CABA: all origin-side rows (in input
order) followed by all destination-side rows, as produced by `pd.concat`. -/
def longObs (pairs : List (Etapa × String)) : List Obs :=
  pairs.filterMap (fun p => mkObs p.1.origen_h3r9 p.1.origen_caba p.1 p.2)
    ++ pairs.filterMap (fun p => mkObs p.1.destino_h3r9 p.1.destino_caba p.1 p.2)

/-- The `drop_duplicates` key: `(h3_index, id_tarjeta)`.  Pandas treats the
NaN `h3_index` of an unmappable coordinate as an ordinary key value, which
`Option ℕ` reproduces. -/
def okey (o : Obs) : Option ℕ × ℕ := (o.h3_index, o.id_tarjeta)

/-- Scan underlying `drop_duplicates`: keep a row iff its key has not been
seen on an earlier row. -/
def dedupFirstAux (seen : List (Option ℕ × ℕ)) : List Obs → List Obs
  | [] => []
  | o :: rest =>
    if okey o ∈ seen then dedupFirstAux seen rest
    else o :: dedupFirstAux (okey o :: seen) rest

/-- The `drop_duplicates` call on the `h3_index` and `id_tarjeta` subset
with the default keep-first policy: the first row of each key survives,
in input order. -/
def dedupFirst (l : List Obs) : List Obs := dedupFirstAux [] l

/-- The `genero_norm` column: the F/M `Series.map` followed by `fillna`
with the other-gender label. -/
def genero_norm (g : Option String) : String :=
  if g = some "F" then "mujeres_circulante"
  else if g = some "M" then "hombres_circulante"
  else "otros_circulante"

/-- The grouped sum of `factor_expansion_viaje` over one
`(h3_index, tramo_edad, genero_norm)` group (rows with NaN `h3_index` are
dropped by `groupby`, hence the `some h` key). -/
def sumFactor (obs : List Obs) (h : ℕ) (t g : String) : ℚ :=
  ((obs.filter fun o => o.h3_index = some h ∧ o.tramo_edad = t
      ∧ genero_norm o.genero = g).map Obs.factor).sum

/-- One row of the pivoted output `df_pivot` of `aggregate_trips_by_h3`.
Pandas only materializes the gender columns that occur in the data; an
absent column is numerically zero both here and everywhere downstream, so
all three are always carried. -/
structure PivotRow where
  h3_index : ℕ
  tramo_edad : String
  hombres_circulante : ℤ
  mujeres_circulante : ℤ
  otros_circulante : ℤ
  total_circulante : ℤ
deriving DecidableEq

/-- The `(h3_index, tramo_edad)` index of the pivot: the distinct keys with
a mapped (non-NaN) cell. -/
def pivotKeys (obs : List Obs) : List (ℕ × String) :=
  (obs.filterMap fun o => o.h3_index.map fun h => (h, o.tramo_edad)).dedup

/-- Steps 2-6 of `aggregate_trips_by_h3` on the long-format rows:
deduplicate by `(h3_index, id_tarjeta)`, group-sum the expansion factor by
`(h3_index, tramo_edad, genero_norm)`, pivot, compute `total_circulante`
as the truncated float row sum, and truncate each gender column. -/
def aggregatePipeline (pairs : List (Etapa × String)) : List PivotRow :=
  (pivotKeys (dedupFirst (longObs pairs))).map fun k =>
    ⟨k.1, k.2,
     truncToZero (sumFactor (dedupFirst (longObs pairs)) k.1 k.2 "hombres_circulante"),
     truncToZero (sumFactor (dedupFirst (longObs pairs)) k.1 k.2 "mujeres_circulante"),
     truncToZero (sumFactor (dedupFirst (longObs pairs)) k.1 k.2 "otros_circulante"),
     truncToZero (sumFactor (dedupFirst (longObs pairs)) k.1 k.2 "hombres_circulante"
       + sumFactor (dedupFirst (longObs pairs)) k.1 k.2 "mujeres_circulante"
       + sumFactor (dedupFirst (longObs pairs)) k.1 k.2 "otros_circulante")⟩

/-- The rows of the mutated frame zipped with its `tramo_edad` column: the
data the long-format unpivot actually reads. -/
def framePairs (f : TripsFrame) : List (Etapa × String) :=
  (mutateFrame f).rows.zip ((mutateFrame f).tramoEdad.getD [])

/-- `aggregate_trips_by_h3`: returns both the frame as the caller sees it
after the call (the function assigns columns on the frame it receives) and
the pivoted circulating-population table. -/
def aggregate_trips_by_h3 (f : TripsFrame) : TripsFrame × List PivotRow :=
  (mutateFrame f, aggregatePipeline (framePairs f))

/-! ### Residential distribution (`distribute_population_to_h3`) -/

/-- One row of `h3_land_weighted`: an (H3 cell, census radio) piece with
its allocation weight `prop_to_radio`. -/
structure WRow where
  h3_index : ℕ
  cod_indec : ℕ
  prop_to_radio : ℚ
deriving DecidableEq

/-- One row of the census table from `load_ct_population_data`: a
(radio, age bracket) with its projected totals. -/
structure CRow where
  cod_indec : ℕ
  tramo_edad : String
  total_conteo : ℤ
  hombres : ℤ
  mujeres : ℤ
deriving DecidableEq

/-- One row of `h3_population`, the residential output. -/
structure PopRow where
  h3_index : ℕ
  tramo_edad : String
  total_h3 : ℤ
  hombres_h3 : ℤ
  mujeres_h3 : ℤ
deriving DecidableEq

/-- The inner merge of `h3_land_weighted` with the census data on the radio
id (an inner merge: each weight row is repeated for each matching census
row). -/
def mergedRows (w : List WRow) (c : List CRow) : List (WRow × CRow) :=
  w.flatMap fun wr => (c.filter fun cr => cr.cod_indec = wr.cod_indec).map fun cr => (wr, cr)

/-- The grouped sum of `<col> * prop_to_radio` over the rows of a merged
list that belong to one `(h3_index, tramo_edad)` group, for the census
column selected by `sel`. -/
def partSumL (m : List (WRow × CRow)) (k : ℕ × String) (sel : CRow → ℤ) : ℚ :=
  ((m.filter fun p => p.1.h3_index = k.1 ∧ p.2.tramo_edad = k.2).map
    fun p => (sel p.2 : ℚ) * p.1.prop_to_radio).sum

/-- The grouped sum of `<col> * prop_to_radio` over one
`(h3_index, tramo_edad)` group of the merged frame. -/
def partSum (w : List WRow) (c : List CRow) (k : ℕ × String) (sel : CRow → ℤ) : ℚ :=
  partSumL (mergedRows w c) k sel

/-- `distribute_population_to_h3`: merge, allocate by `prop_to_radio`,
group-sum per (cell, bracket), round `hombres` and `total` once at the
cell level (pandas `round`, half-to-even), and recompute
`mujeres_h3 = total_h3 - hombres_h3`.  The intermediate float `_part`
columns also kept by the pandas frame are dropped by the downstream
column selection in `integrate_population_data` and are not carried. -/
def distribute_population_to_h3 (w : List WRow) (c : List CRow) : List PopRow :=
  (((mergedRows w c).map fun p => (p.1.h3_index, p.2.tramo_edad)).dedup).map fun k =>
    ⟨k.1, k.2,
     roundHalfEven (partSum w c k CRow.total_conteo),
     roundHalfEven (partSum w c k CRow.hombres),
     roundHalfEven (partSum w c k CRow.total_conteo)
       - roundHalfEven (partSum w c k CRow.hombres)⟩

/-! ### Reach integration (`integrate_population_data`) -/

/-- One row of the final `df_final` reach table. -/
structure ReachRow where
  h3_index : ℕ
  tramo_edad : String
  hombres_residentes : ℤ
  mujeres_residentes : ℤ
  total_residentes : ℤ
  hombres_circulante : ℤ
  mujeres_circulante : ℤ
  otros_circulante : ℤ
  total_circulante : ℤ
  hombres_total_reach : ℤ
  mujeres_total_reach : ℤ
  total_reach : ℤ
deriving DecidableEq

/-- The residential row matching a `(h3_index, tramo_edad)` key. -/
def findRes (res : List PopRow) (h : ℕ) (t : String) : Option PopRow :=
  res.find? fun r => r.h3_index = h ∧ r.tramo_edad = t

/-- The circulating row matching a `(h3_index, tramo_edad)` key. -/
def findCirc (circ : List PivotRow) (h : ℕ) (t : String) : Option PivotRow :=
  circ.find? fun p => p.h3_index = h ∧ p.tramo_edad = t

/-- `integrate_population_data`: outer merge of the residential and
circulating tables on `(h3_index, tramo_edad)` (both inputs have unique
keys, being groupby outputs, so the merge is key lookup), `fillna(0)` on
the metrics of a missing side, and the reach sums
`total_reach = total_residentes + total_circulante` (and per gender). -/
def integrate_population_data (res : List PopRow) (circ : List PivotRow) : List ReachRow :=
  (((res.map fun r => (r.h3_index, r.tramo_edad))
      ++ (circ.map fun p => (p.h3_index, p.tramo_edad))).dedup).map fun k =>
    ⟨k.1, k.2,
     ((findRes res k.1 k.2).map PopRow.hombres_h3).getD 0,
     ((findRes res k.1 k.2).map PopRow.mujeres_h3).getD 0,
     ((findRes res k.1 k.2).map PopRow.total_h3).getD 0,
     ((findCirc circ k.1 k.2).map PivotRow.hombres_circulante).getD 0,
     ((findCirc circ k.1 k.2).map PivotRow.mujeres_circulante).getD 0,
     ((findCirc circ k.1 k.2).map PivotRow.otros_circulante).getD 0,
     ((findCirc circ k.1 k.2).map PivotRow.total_circulante).getD 0,
     ((findRes res k.1 k.2).map PopRow.hombres_h3).getD 0
       + ((findCirc circ k.1 k.2).map PivotRow.hombres_circulante).getD 0,
     ((findRes res k.1 k.2).map PopRow.mujeres_h3).getD 0
       + ((findCirc circ k.1 k.2).map PivotRow.mujeres_circulante).getD 0,
     ((findRes res k.1 k.2).map PopRow.total_h3).getD 0
       + ((findCirc circ k.1 k.2).map PivotRow.total_circulante).getD 0⟩

/-! ### Neighborhood expansion (`calculate_kring_reach`)

The `pop_dict` lookup of the wide population table, one metric column at a
time (the code iterates the same sums over every numeric column
independently); `h3.grid_disk` is passed in as the abstract adjacency
function `disk`. -/

/-- `h3_index in pop_dict` / `pop_dict[h3_index]` (keys are unique: the
table is grouped by `h3_index` upstream). -/
def lookupPop (pop : List (ℕ × ℤ)) (c : ℕ) : Option ℤ :=
  (pop.find? fun p => p.1 = c).map Prod.snd

/-- The expanded value at one center cell: the metric summed over
`h3.grid_disk(center, k)`, where neighbors absent from the table
contribute 0. -/
def expandedVal (disk : ℕ → List ℕ) (pop : List (ℕ × ℤ)) (c : ℕ) : ℤ :=
  ((disk c).map fun n => (lookupPop pop n).getD 0).sum

/-- `calculate_kring_reach`: one output row per populated cell, holding the
k-ring-expanded metric. -/
def calculate_kring_reach (disk : ℕ → List ℕ) (pop : List (ℕ × ℤ)) : List (ℕ × ℤ) :=
  pop.map fun p => (p.1, expandedVal disk pop p.1)

/-! ### Grid builder (`create_h3_grid`) -/

/-- The cell-id accumulation of `create_h3_grid`: starting from an empty
set, union in `h3.polygon_to_cells` (passed in as `cellsOf`) of every part
of the (possibly multi-part) boundary. -/
def create_h3_grid_cells {α : Type} (cellsOf : α → Finset ℕ) (parts : List α) : Finset ℕ :=
  parts.foldl (fun s p => s ∪ cellsOf p) ∅

/-! ### Evaluation lemmas for the grouped rational sums -/

theorem sumFactor_nil (h : ℕ) (t g : String) : sumFactor [] h t g = 0 := rfl

theorem sumFactor_cons (o : Obs) (rest : List Obs) (h : ℕ) (t g : String) :
    sumFactor (o :: rest) h t g =
      if o.h3_index = some h ∧ o.tramo_edad = t ∧ genero_norm o.genero = g
      then o.factor + sumFactor rest h t g
      else sumFactor rest h t g := by
  by_cases hc : o.h3_index = some h ∧ o.tramo_edad = t ∧ genero_norm o.genero = g
  · simp [sumFactor, List.filter_cons, hc]
  · simp [sumFactor, List.filter_cons, hc]

theorem partSumL_nil (k : ℕ × String) (sel : CRow → ℤ) : partSumL [] k sel = 0 := rfl

theorem partSumL_cons (p : WRow × CRow) (rest : List (WRow × CRow)) (k : ℕ × String)
    (sel : CRow → ℤ) :
    partSumL (p :: rest) k sel =
      if p.1.h3_index = k.1 ∧ p.2.tramo_edad = k.2
      then (sel p.2 : ℚ) * p.1.prop_to_radio + partSumL rest k sel
      else partSumL rest k sel := by
  by_cases hc : p.1.h3_index = k.1 ∧ p.2.tramo_edad = k.2
  · simp [partSumL, List.filter_cons, hc]
  · simp [partSumL, List.filter_cons, hc]

/-! ### Structural lemmas -/

theorem sum_nonneg_of_mem {M : Type} [OrderedAddCommMonoid M] :
    ∀ (l : List M), (∀ x ∈ l, 0 ≤ x) → 0 ≤ l.sum := by
  intro l
  induction l with
  | nil => intro h; simp
  | cons a t ih =>
    intro h
    rw [List.sum_cons]
    exact add_nonneg (h a (List.mem_cons_self a t))
      (ih fun x hx => h x (List.mem_cons_of_mem _ hx))

theorem sum_map_div (l : List ℚ) (A : ℚ) : (l.map fun x => x / A).sum = l.sum / A := by
  induction l with
  | nil => simp
  | cons a t ih => simp [ih, add_div]

theorem map_eq_of_agree {α β : Type} (f g : α → β) :
    ∀ (l : List α), (∀ a ∈ l, f a = g a) → l.map f = l.map g := by
  intro l
  induction l with
  | nil => intro h; rfl
  | cons a t ih =>
    intro h
    simp only [List.map_cons]
    rw [h a (List.mem_cons_self a t), ih fun x hx => h x (List.mem_cons_of_mem _ hx)]

theorem truncToZero_of_nonneg {x : ℚ} (hx : 0 ≤ x) : truncToZero x = ⌊x⌋ := if_pos hx

theorem truncToZero_add_le {x y : ℚ} (hx : 0 ≤ x) (hy : 0 ≤ y) :
    truncToZero x + truncToZero y ≤ truncToZero (x + y) := by
  rw [truncToZero_of_nonneg hx, truncToZero_of_nonneg hy,
    truncToZero_of_nonneg (add_nonneg hx hy)]
  refine Int.le_floor.2 ?_
  push_cast
  exact add_le_add (Int.floor_le x) (Int.floor_le y)

theorem truncToZero_mono {x y : ℚ} (hx : 0 ≤ x) (hxy : x ≤ y) :
    truncToZero x ≤ truncToZero y := by
  rw [truncToZero_of_nonneg hx, truncToZero_of_nonneg (hx.trans hxy)]
  exact Int.floor_mono hxy

theorem mem_of_mem_dedupFirstAux {o : Obs} :
    ∀ (l : List Obs) (seen : List (Option ℕ × ℕ)), o ∈ dedupFirstAux seen l → o ∈ l := by
  intro l
  induction l with
  | nil =>
    intro seen h
    simp [dedupFirstAux] at h
  | cons a rest ih =>
    intro seen h
    simp only [dedupFirstAux] at h
    by_cases hs : okey a ∈ seen
    · rw [if_pos hs] at h
      exact List.mem_cons_of_mem _ (ih seen h)
    · rw [if_neg hs] at h
      rcases List.mem_cons.1 h with h1 | h2
      · exact h1 ▸ List.mem_cons_self _ _
      · exact List.mem_cons_of_mem _ (ih _ h2)

theorem mem_of_mem_dedupFirst {o : Obs} {l : List Obs} (h : o ∈ dedupFirst l) : o ∈ l :=
  mem_of_mem_dedupFirstAux l [] h

theorem dedupFirstAux_filter_key (k : Option ℕ × ℕ) :
    ∀ (l : List Obs) (seen : List (Option ℕ × ℕ)),
      (k ∉ seen → (dedupFirstAux seen l).filter (fun o => okey o = k)
          = (l.find? fun o => okey o = k).toList)
        ∧ (k ∈ seen → (dedupFirstAux seen l).filter (fun o => okey o = k) = []) := by
  intro l
  induction l with
  | nil =>
    intro seen
    exact ⟨fun h => rfl, fun h => rfl⟩
  | cons a rest ih =>
    intro seen
    constructor
    · intro hk
      simp only [dedupFirstAux]
      by_cases hs : okey a ∈ seen
      · have hne : ¬(okey a = k) := fun he => hk (he ▸ hs)
        rw [if_pos hs, (ih seen).1 hk, List.find?_cons_of_neg _ (by simpa using hne)]
      · rw [if_neg hs]
        by_cases he : okey a = k
        · rw [List.filter_cons_of_pos (by simpa using he),
            List.find?_cons_of_pos _ (by simpa using he),
            (ih (okey a :: seen)).2 (by simp [he])]
          rfl
        · have hk2 : k ∉ okey a :: seen := by
            simp only [List.mem_cons, not_or]
            exact ⟨fun h1 => he h1.symm, hk⟩
          rw [List.filter_cons_of_neg (by simpa using he),
            (ih (okey a :: seen)).1 hk2,
            List.find?_cons_of_neg _ (by simpa using he)]
    · intro hk
      simp only [dedupFirstAux]
      by_cases hs : okey a ∈ seen
      · rw [if_pos hs]
        exact (ih seen).2 hk
      · have he : ¬(okey a = k) := fun h => hs (h ▸ hk)
        rw [if_neg hs, List.filter_cons_of_neg (by simpa using he)]
        exact (ih (okey a :: seen)).2 (List.mem_cons_of_mem _ hk)

theorem dedupFirst_filter_key (l : List Obs) (k : Option ℕ × ℕ) :
    (dedupFirst l).filter (fun o => okey o = k) = (l.find? fun o => okey o = k).toList :=
  (dedupFirstAux_filter_key k l []).1 (by simp)

theorem foldl_union_eq {α : Type} (cellsOf : α → Finset ℕ) :
    ∀ (parts : List α) (s : Finset ℕ),
      parts.foldl (fun t p => t ∪ cellsOf p) s
        = s ∪ parts.foldl (fun t p => t ∪ cellsOf p) ∅ := by
  intro parts
  induction parts with
  | nil => intro s; simp
  | cons a t ih =>
    intro s
    simp only [List.foldl_cons]
    rw [ih (s ∪ cellsOf a), ih (∅ ∪ cellsOf a), Finset.empty_union, Finset.union_assoc]

theorem create_h3_grid_cells_append {α : Type} (cellsOf : α → Finset ℕ) (l1 l2 : List α) :
    create_h3_grid_cells cellsOf (l1 ++ l2)
      = create_h3_grid_cells cellsOf l1 ∪ create_h3_grid_cells cellsOf l2 := by
  unfold create_h3_grid_cells
  rw [List.foldl_append]
  exact foldl_union_eq cellsOf l2 _

theorem mem_create_h3_grid_cells {α : Type} (cellsOf : α → Finset ℕ) :
    ∀ (parts : List α) (cell : ℕ),
      cell ∈ create_h3_grid_cells cellsOf parts ↔ ∃ p ∈ parts, cell ∈ cellsOf p := by
  intro parts
  induction parts with
  | nil => intro cell; simp [create_h3_grid_cells]
  | cons a t ih =>
    intro cell
    unfold create_h3_grid_cells
    simp only [List.foldl_cons]
    rw [foldl_union_eq cellsOf t (∅ ∪ cellsOf a)]
    unfold create_h3_grid_cells at ih
    simp [ih cell, or_comm]

/-! ### Claim theorems -/

/-- C2: for every census areal unit whose (positive-area) polygon is fully
covered by the hexagonal grid — i.e. the areas of its intersection pieces
sum to exactly the area of the unit — the `prop_to_radio` weights produced by
`add_intersection_area_proportions` over the cells intersecting that unit
are all finite numbers and sum to 1.0 within ±1e-6 (here: exactly 1). -/
theorem c2_weights_conservation (areaOf : ℕ → Option ℚ) (rows : List IRow) (u : ℕ) (A : ℚ)
    (hA : areaOf u = some A) (hpos : 0 < A)
    (hcov : ((rows.filter fun r => r.radio = u).map IRow.area).sum = A) :
    ((rows.filter fun r => r.radio = u).map (prop_to_radio areaOf)).all FVal.isNum = true
      ∧ |((rows.filter fun r => r.radio = u).map fun r =>
          (prop_to_radio areaOf r).toRat).sum - 1| ≤ 1 / 1000000 := by
  have hAne : A ≠ 0 := ne_of_gt hpos
  have hmem : ∀ r ∈ rows.filter (fun r => decide (r.radio = u)), r.radio = u := by
    intro r hr
    simpa using List.of_mem_filter hr
  have hprop : ∀ r ∈ rows.filter (fun r => decide (r.radio = u)),
      prop_to_radio areaOf r = .num (r.area / A) := by
    intro r hr
    unfold prop_to_radio
    rw [hmem r hr, hA]
    show fillna0 (fdiv r.area A) = FVal.num (r.area / A)
    simp [fdiv, fillna0, hAne]
  constructor
  · rw [List.all_eq_true]
    intro x hx
    obtain ⟨r, hr, rfl⟩ := List.mem_map.1 hx
    rw [hprop r hr]
    rfl
  · have h1 : ((rows.filter fun r => r.radio = u).map fun r => (prop_to_radio areaOf r).toRat)
        = (rows.filter fun r => r.radio = u).map fun r => r.area / A := by
      apply map_eq_of_agree
      intro r hr
      rw [hprop r hr]
      rfl
    have h2 : ((rows.filter fun r => r.radio = u).map fun r => r.area / A)
        = (((rows.filter fun r => r.radio = u).map IRow.area).map fun x => x / A) := by
      rw [List.map_map]
      rfl
    rw [h1, h2, sum_map_div, hcov, div_self hAne]
    norm_num

/-- Witness for C2: one unit (id 1) of area 100 split 30/70 across two
cells; its two weights are finite and sum to exactly 1. -/
theorem c2_weights_conservation_witness :
    ((fun u => if u = 1 then some (100 : ℚ) else none) 1 = some 100)
      ∧ (0 : ℚ) < 100
      ∧ ((([⟨10, 1, 30⟩, ⟨11, 1, 70⟩] : List IRow).filter fun r => r.radio = 1).map
          IRow.area).sum = 100
      ∧ (((([⟨10, 1, 30⟩, ⟨11, 1, 70⟩] : List IRow).filter fun r => r.radio = 1).map
            (prop_to_radio fun u => if u = 1 then some (100 : ℚ) else none)).all
          FVal.isNum = true
        ∧ |((([⟨10, 1, 30⟩, ⟨11, 1, 70⟩] : List IRow).filter fun r => r.radio = 1).map fun r =>
            (prop_to_radio (fun u => if u = 1 then some (100 : ℚ) else none) r).toRat).sum - 1|
          ≤ 1 / 1000000) := by
  have hcov : ((([⟨10, 1, 30⟩, ⟨11, 1, 70⟩] : List IRow).filter fun r => r.radio = 1).map
      IRow.area).sum = 100 := by
    rw [show (([⟨10, 1, 30⟩, ⟨11, 1, 70⟩] : List IRow).filter fun r => r.radio = 1)
        = [⟨10, 1, 30⟩, ⟨11, 1, 70⟩] from by decide]
    norm_num
  exact ⟨rfl, by norm_num, hcov,
    c2_weights_conservation (fun u => if u = 1 then some (100 : ℚ) else none)
      [⟨10, 1, 30⟩, ⟨11, 1, 70⟩] 1 100 rfl (by norm_num) hcov⟩

/-- C3: for every (unit, bracket) total `t` whose bracket has
female-per-100-male ratio `r` in the ratio table, the projector sets
`hombres = round(t / (1 + r/100))` (pandas round, half-to-even) and
`mujeres = t - hombres` — never independently rounded — so the two always
sum back to `t`; in particular ratio 110 applied to total 21 gives
`hombres = 10` and `mujeres = 11`, and 110 is the table ratio of bracket
"40 A 44". -/
theorem c3_gender_projection :
    (∀ t r : ℤ, hombres_proj t r = roundHalfEven ((t : ℚ) / (1 + (r : ℚ) / 100))
      ∧ mujeres_proj t r = t - hombres_proj t r
      ∧ hombres_proj t r + mujeres_proj t r = t)
    ∧ ("40 A 44", (110 : ℤ)) ∈ data_tasas
    ∧ hombres_proj 21 110 = 10
    ∧ mujeres_proj 21 110 = 11 := by
  refine ⟨fun t r => ⟨rfl, rfl, ?_⟩, by decide, ?_, ?_⟩
  · unfold mujeres_proj
    ring
  · norm_num [hombres_proj, roundHalfEven]
  · norm_num [mujeres_proj, hombres_proj, roundHalfEven]

/-- C8: a census unit with zero projected area (its intersection pieces,
being contained in it, also have zero area) gets allocation weight exactly
`num 0` for each of its rows — the 0/0 NaN is filled to 0, never an
infinity or an error. -/
theorem c8_zero_area_weight (areaOf : ℕ → Option ℚ) (u : ℕ) (r : IRow)
    (hu : r.radio = u) (hA : areaOf u = some 0)
    (h0 : 0 ≤ r.area) (h1 : r.area ≤ 0) :
    prop_to_radio areaOf r = .num 0 := by
  have hz : r.area = 0 := le_antisymm h1 h0
  unfold prop_to_radio
  rw [hu, hA]
  show fillna0 (fdiv r.area 0) = FVal.num 0
  simp [fdiv, fillna0, hz]

/-- Witness for C8: a zero-area unit (id 3) with a zero-area intersection
row evaluates to weight `num 0`. -/
theorem c8_zero_area_weight_witness :
    ((⟨9, 3, 0⟩ : IRow).radio = 3)
      ∧ ((fun u => if u = 3 then some (0 : ℚ) else none) 3 = some 0)
      ∧ prop_to_radio (fun u => if u = 3 then some (0 : ℚ) else none) ⟨9, 3, 0⟩ = .num 0 :=
  ⟨rfl, rfl,
    c8_zero_area_weight (fun u => if u = 3 then some (0 : ℚ) else none) 3 ⟨9, 3, 0⟩
      rfl rfl (by decide) (by decide)⟩

/-- C10: the cell-id set of the Grid Builder is a pure function of the boundary
parts and `polygon_to_cells` results, so two runs agree; its membership is
exactly "covered by some part" (set semantics, duplicates collapse); and
processing the same part list twice yields the identical cell-id set. -/
theorem c10_grid_idempotent {α : Type} (cellsOf : α → Finset ℕ) (parts : List α) :
    create_h3_grid_cells cellsOf parts = create_h3_grid_cells cellsOf parts
      ∧ (∀ cell, cell ∈ create_h3_grid_cells cellsOf parts ↔ ∃ p ∈ parts, cell ∈ cellsOf p)
      ∧ create_h3_grid_cells cellsOf (parts ++ parts) = create_h3_grid_cells cellsOf parts :=
  ⟨rfl, mem_create_h3_grid_cells cellsOf parts, by
    rw [create_h3_grid_cells_append, Finset.union_self]⟩

/-- C4 counterexample: `_normalizar_edad` treats the numeric value as a
bracket lower bound, so age 26 maps to the label "26 A 30" — not to the
canonical bracket "25 A 29" that contains it — and that non-canonical,
non-unknown label reaches the aggregated circulating output. -/
theorem c4_counterexample :
    normalizar_edad (.val 26) = "26 A 30"
      ∧ normalizar_edad (.val 26) ≠ "25 A 29"
      ∧ "26 A 30" ∉ tramos_canonicos
      ∧ "26 A 30" ≠ "Desconocido"
      ∧ (aggregate_trips_by_h3
          ⟨[⟨some 1, some 1, some "F", .val 26, none, some 5, false, true⟩], true, true, none⟩).2
        = [⟨5, "26 A 30", 0, 1, 0, 1⟩] := by
  refine ⟨by decide, by decide, by decide, by decide, ?_⟩
  have hded : dedupFirst (longObs (framePairs
      ⟨[⟨some 1, some 1, some "F", .val 26, none, some 5, false, true⟩], true, true, none⟩))
      = [⟨some 5, 1, 1, some "F", "26 A 30"⟩] := by decide
  have hkeys : pivotKeys [(⟨some 5, 1, 1, some "F", "26 A 30"⟩ : Obs)]
      = [(5, "26 A 30")] := by decide
  simp [aggregate_trips_by_h3, aggregatePipeline, hded, hkeys, sumFactor_cons,
    sumFactor_nil, genero_norm]
  norm_num [truncToZero]

/-- C4 amended: `_normalizar_edad` maps a numeric value `v` to the label
`f"{v:02d} A {v+4:02d}"` (treating it as a bracket lower bound), values
truncating to 100 or more to "100 Y MÁS", and missing or non-numeric
values to the explicit unknown label "Desconocido".  Consequently exactly
the values that are multiples of five (or ≥ 100) land in the canonical
bracket set — age 25 yields "25 A 29" but age 26 yields "26 A 30", a
label outside the canonical set. -/
theorem c4_age_normalization_amended (j : ℕ) (hj : j < 20) (q : ℚ)
    (h100 : 100 ≤ truncToZero q) :
    normalizar_edad .missing = "Desconocido"
      ∧ normalizar_edad .nonNumeric = "Desconocido"
      ∧ normalizar_edad (.val q) = "100 Y MÁS"
      ∧ normalizar_edad (.val ((5 * j : ℕ) : ℚ)) ∈ tramos_canonicos
      ∧ normalizar_edad (.val 25) = "25 A 29"
      ∧ normalizar_edad (.val 26) = "26 A 30" := by
  refine ⟨rfl, rfl, ?_, ?_, by decide, by decide⟩
  · show (if 100 ≤ truncToZero q then "100 Y MÁS"
        else fmt2 (truncToZero q) ++ " A " ++ fmt2 (truncToZero q + 4)) = "100 Y MÁS"
    rw [if_pos h100]
  · have hall : ∀ j2 : ℕ, j2 < 20 →
        normalizar_edad (.val ((5 * j2 : ℕ) : ℚ)) ∈ tramos_canonicos := by decide
    exact hall j hj

/-- Witness for the amended C4: instantiated at the multiple-of-five age
15 (j = 3) and at the over-100 age 123. -/
theorem c4_age_normalization_amended_witness :
    ((3 : ℕ) < 20 ∧ 100 ≤ truncToZero (123 : ℚ))
      ∧ (normalizar_edad .missing = "Desconocido"
        ∧ normalizar_edad .nonNumeric = "Desconocido"
        ∧ normalizar_edad (.val (123 : ℚ)) = "100 Y MÁS"
        ∧ normalizar_edad (.val ((5 * 3 : ℕ) : ℚ)) ∈ tramos_canonicos
        ∧ normalizar_edad (.val 25) = "25 A 29"
        ∧ normalizar_edad (.val 26) = "26 A 30") :=
  ⟨⟨by decide, by decide⟩, c4_age_normalization_amended 3 (by decide) 123 (by decide)⟩

/-- C9 counterexample: `aggregate_trips_by_h3` is not a pure transform of
an immutable input — it assigns columns on the frame it receives.  On a
frame without a `genero` column and without a `tramo_edad` column, the
frame the caller holds after the call differs from the one passed in. -/
theorem c9_counterexample :
    (aggregate_trips_by_h3
        ⟨[⟨some 1, some 1, some "F", .val 25, none, some 5, false, true⟩], true, false, none⟩).1
      ≠ ⟨[⟨some 1, some 1, some "F", .val 25, none, some 5, false, true⟩], true, false, none⟩ := by
  decide

/-- C9 amended: the mutation `aggregate_trips_by_h3` performs on its input
frame is exactly: the `tramo_edad` column is (re)written with the
normalized ages (or the constant "Desconocido" when `grupo_edad` is
absent), and a missing `genero` column is created filled with
"Desconocido"; the row count, every other column, and — when `genero` was
present — the rows themselves are unchanged, and the returned aggregate is
computed from the mutated frame. -/
theorem c9_mutation_amended (f : TripsFrame) :
    ((aggregate_trips_by_h3 f).1).rows
        = (if f.hasGenero then f.rows
           else f.rows.map fun r => { r with genero := some "Desconocido" })
      ∧ ((aggregate_trips_by_h3 f).1).hasGrupoEdad = f.hasGrupoEdad
      ∧ ((aggregate_trips_by_h3 f).1).hasGenero = true
      ∧ ((aggregate_trips_by_h3 f).1).tramoEdad
        = some (if f.hasGrupoEdad then f.rows.map fun r => normalizar_edad r.grupo_edad
                else f.rows.map fun _ => "Desconocido")
      ∧ ((aggregate_trips_by_h3 f).1).rows.length = f.rows.length
      ∧ (aggregate_trips_by_h3 f).2 = aggregatePipeline (framePairs f) := by
  refine ⟨rfl, rfl, rfl, rfl, ?_, rfl⟩
  show (mutateFrame f).rows.length = f.rows.length
  by_cases hg : f.hasGenero <;> simp [mutateFrame, hg]

/-- C5: for any frame and any (cell, rider) key, the deduplicated
long-format rows for that key are exactly the first long-format occurrence
of the key — so a rider occurring in the same cell on several legs is
counted once, its sampling weight contributes once, and the first
age/gender attributes of the first occurrence are the ones kept.  Scenario 3
concretely: two legs of the same rider into the same destination cell,
ages 25 and 26, weight 1.0 each, aggregate to one row of weight 1 (not 2)
carrying the bracket of the first leg. -/
theorem c5_rider_dedup (f : TripsFrame) (k : Option ℕ × ℕ) :
    (dedupFirst (longObs (framePairs f))).filter (fun o => okey o = k)
        = ((longObs (framePairs f)).find? fun o => okey o = k).toList
      ∧ (aggregate_trips_by_h3
          ⟨[⟨some 1, some 1, some "F", .val 25, none, some 7, false, true⟩,
            ⟨some 1, some 1, some "F", .val 26, none, some 7, false, true⟩],
           true, true, none⟩).2
        = [⟨7, "25 A 29", 0, 1, 0, 1⟩] := by
  refine ⟨dedupFirst_filter_key _ _, ?_⟩
  have hded : dedupFirst (longObs (framePairs
      ⟨[⟨some 1, some 1, some "F", .val 25, none, some 7, false, true⟩,
        ⟨some 1, some 1, some "F", .val 26, none, some 7, false, true⟩],
       true, true, none⟩))
      = [⟨some 7, 1, 1, some "F", "25 A 29"⟩] := by decide
  have hkeys : pivotKeys [(⟨some 7, 1, 1, some "F", "25 A 29"⟩ : Obs)]
      = [(7, "25 A 29")] := by decide
  simp [aggregate_trips_by_h3, aggregatePipeline, hded, hkeys, sumFactor_cons,
    sumFactor_nil, genero_norm]
  norm_num [truncToZero]

/-- C6: every output row of `integrate_population_data` takes its
residential metrics from the matching residential row if any — else 0 —
and its circulating metrics from the matching circulating row if any —
else 0 (the outer merge with `fillna(0)`); its reach metrics are the sums
`total_reach = total_residentes + total_circulante` and the gendered
analogues; and, the inputs being non-negative integers, every output
metric is a non-negative integer. -/
theorem c6_integration (res : List PopRow) (circ : List PivotRow)
    (hres : ∀ r ∈ res, 0 ≤ r.hombres_h3 ∧ 0 ≤ r.mujeres_h3 ∧ 0 ≤ r.total_h3)
    (hcirc : ∀ p ∈ circ, 0 ≤ p.hombres_circulante ∧ 0 ≤ p.mujeres_circulante
      ∧ 0 ≤ p.otros_circulante ∧ 0 ≤ p.total_circulante)
    (row : ReachRow) (hrow : row ∈ integrate_population_data res circ) :
    row.hombres_residentes
        = ((findRes res row.h3_index row.tramo_edad).map PopRow.hombres_h3).getD 0
      ∧ row.mujeres_residentes
        = ((findRes res row.h3_index row.tramo_edad).map PopRow.mujeres_h3).getD 0
      ∧ row.total_residentes
        = ((findRes res row.h3_index row.tramo_edad).map PopRow.total_h3).getD 0
      ∧ row.hombres_circulante
        = ((findCirc circ row.h3_index row.tramo_edad).map PivotRow.hombres_circulante).getD 0
      ∧ row.mujeres_circulante
        = ((findCirc circ row.h3_index row.tramo_edad).map PivotRow.mujeres_circulante).getD 0
      ∧ row.otros_circulante
        = ((findCirc circ row.h3_index row.tramo_edad).map PivotRow.otros_circulante).getD 0
      ∧ row.total_circulante
        = ((findCirc circ row.h3_index row.tramo_edad).map PivotRow.total_circulante).getD 0
      ∧ row.hombres_total_reach = row.hombres_residentes + row.hombres_circulante
      ∧ row.mujeres_total_reach = row.mujeres_residentes + row.mujeres_circulante
      ∧ row.total_reach = row.total_residentes + row.total_circulante
      ∧ 0 ≤ row.hombres_residentes ∧ 0 ≤ row.mujeres_residentes ∧ 0 ≤ row.total_residentes
      ∧ 0 ≤ row.hombres_circulante ∧ 0 ≤ row.mujeres_circulante ∧ 0 ≤ row.otros_circulante
      ∧ 0 ≤ row.total_circulante ∧ 0 ≤ row.hombres_total_reach
      ∧ 0 ≤ row.mujeres_total_reach ∧ 0 ≤ row.total_reach := by
  unfold integrate_population_data at hrow
  obtain ⟨k, hk, rfl⟩ := List.mem_map.1 hrow
  have hR : 0 ≤ ((findRes res k.1 k.2).map PopRow.hombres_h3).getD 0
      ∧ 0 ≤ ((findRes res k.1 k.2).map PopRow.mujeres_h3).getD 0
      ∧ 0 ≤ ((findRes res k.1 k.2).map PopRow.total_h3).getD 0 := by
    cases hfind : findRes res k.1 k.2 with
    | none => simp
    | some r =>
      have hrmem : r ∈ res := List.mem_of_find?_eq_some hfind
      have h := hres r hrmem
      simp [h.1, h.2.1, h.2.2]
  have hC : 0 ≤ ((findCirc circ k.1 k.2).map PivotRow.hombres_circulante).getD 0
      ∧ 0 ≤ ((findCirc circ k.1 k.2).map PivotRow.mujeres_circulante).getD 0
      ∧ 0 ≤ ((findCirc circ k.1 k.2).map PivotRow.otros_circulante).getD 0
      ∧ 0 ≤ ((findCirc circ k.1 k.2).map PivotRow.total_circulante).getD 0 := by
    cases hfind : findCirc circ k.1 k.2 with
    | none => simp
    | some p =>
      have hpmem : p ∈ circ := List.mem_of_find?_eq_some hfind
      have h := hcirc p hpmem
      simp [h.1, h.2.1, h.2.2.1, h.2.2.2]
  exact ⟨rfl, rfl, rfl, rfl, rfl, rfl, rfl, rfl, rfl, rfl,
    hR.1, hR.2.1, hR.2.2, hC.1, hC.2.1, hC.2.2.1, hC.2.2.2,
    add_nonneg hR.1 hC.1, add_nonneg hR.2.1 hC.2.1, add_nonneg hR.2.2 hC.2.2.2⟩

/-- Witness for C6: a residential-only row (cell 1) merged with a
circulating-only table; its reach equals its residential metrics and all
outputs are non-negative. -/
theorem c6_integration_witness :
    ((⟨1, "00 A 04", 2, 1, 3, 0, 0, 0, 0, 2, 1, 3⟩ : ReachRow)
        ∈ integrate_population_data [⟨1, "00 A 04", 3, 2, 1⟩] [⟨2, "05 A 09", 1, 1, 0, 2⟩])
      ∧ (⟨1, "00 A 04", 2, 1, 3, 0, 0, 0, 0, 2, 1, 3⟩ : ReachRow).total_reach
        = (⟨1, "00 A 04", 2, 1, 3, 0, 0, 0, 0, 2, 1, 3⟩ : ReachRow).total_residentes
          + (⟨1, "00 A 04", 2, 1, 3, 0, 0, 0, 0, 2, 1, 3⟩ : ReachRow).total_circulante
      ∧ 0 ≤ (⟨1, "00 A 04", 2, 1, 3, 0, 0, 0, 0, 2, 1, 3⟩ : ReachRow).total_reach := by
  have h := c6_integration [⟨1, "00 A 04", 3, 2, 1⟩] [⟨2, "05 A 09", 1, 1, 0, 2⟩]
    (by decide) (by decide) ⟨1, "00 A 04", 2, 1, 3, 0, 0, 0, 0, 2, 1, 3⟩ (by decide)
  exact ⟨by decide, h.2.2.2.2.2.2.2.2.2.1,
    h.2.2.2.2.2.2.2.2.2.2.2.2.2.2.2.2.2.2.2⟩

/-- C7: for a populated cell `c` (`h3.grid_disk` always contains the
center), the 1-ring-expanded metric the
Neighborhood Expander emits for `c` equals the own value of the cell plus the
values of its in-table disk neighbors (absent neighbors contribute 0); it
is therefore at least the un-expanded value of the cell when the metric is
non-negative; cells outside the disk contribute nothing (any table
agreeing on the disk yields the same expansion); and Scenario 4: cell 0
(value 10) with neighbor 1 (value 5) and non-adjacent cell 7 (value 1000)
expands to 15, not 1015. -/
theorem c7_kring_expansion (disk : ℕ → List ℕ) (pop pop2 : List (ℕ × ℤ)) (c : ℕ) (v : ℤ)
    (hself : c ∈ disk c)
    (hcv : lookupPop pop c = some v)
    (hnn : ∀ p ∈ pop, 0 ≤ p.2)
    (hagr : ∀ n ∈ disk c, lookupPop pop2 n = lookupPop pop n) :
    (c, expandedVal disk pop c) ∈ calculate_kring_reach disk pop
      ∧ expandedVal disk pop c
        = v + (((disk c).erase c).map fun n => (lookupPop pop n).getD 0).sum
      ∧ v ≤ expandedVal disk pop c
      ∧ expandedVal disk pop2 c = expandedVal disk pop c
      ∧ expandedVal (fun n => if n = 0 then [0, 1] else [n]) [(0, 10), (1, 5), (7, 1000)] 0
        = 15 := by
  have hdec : expandedVal disk pop c
      = v + (((disk c).erase c).map fun n => (lookupPop pop n).getD 0).sum := by
    unfold expandedVal
    rw [List.Perm.sum_eq (List.Perm.map _ (List.perm_cons_erase hself))]
    rw [List.map_cons, List.sum_cons, hcv]
    rfl
  have hnn2 : ∀ n : ℕ, 0 ≤ (lookupPop pop n).getD 0 := by
    intro n
    unfold lookupPop
    cases hfind : pop.find? fun p => p.1 = n with
    | none => simp
    | some p =>
      have hpmem : p ∈ pop := List.mem_of_find?_eq_some hfind
      simpa using hnn p hpmem
  refine ⟨?_, hdec, ?_, ?_, by decide⟩
  · unfold lookupPop at hcv
    cases hfind : pop.find? fun p => p.1 = c with
    | none => rw [hfind] at hcv; exact absurd hcv (by simp)
    | some p =>
      have hpc : p.1 = c := by simpa using List.find?_some hfind
      have hpmem : p ∈ pop := List.mem_of_find?_eq_some hfind
      unfold calculate_kring_reach
      exact List.mem_map.2 ⟨p, hpmem, by rw [hpc]⟩
  · rw [hdec]
    refine le_add_of_nonneg_right (sum_nonneg_of_mem _ ?_)
    intro x hx
    obtain ⟨n, hn, rfl⟩ := List.mem_map.1 hx
    exact hnn2 n
  · unfold expandedVal
    rw [map_eq_of_agree _ _ (disk c) fun n hn => by rw [hagr n hn]]

/-- Witness for C7: the data of Scenario 4, with a second table that agrees on
the disk of cell 0 but drops the non-adjacent cell. -/
theorem c7_kring_expansion_witness :
    ((0 : ℕ) ∈ (fun n : ℕ => if n = 0 then [0, 1] else [n]) 0
        ∧ lookupPop [(0, 10), (1, 5), (7, 1000)] 0 = some 10)
      ∧ ((0, expandedVal (fun n => if n = 0 then [0, 1] else [n]) [(0, 10), (1, 5), (7, 1000)] 0)
          ∈ calculate_kring_reach (fun n => if n = 0 then [0, 1] else [n])
            [(0, 10), (1, 5), (7, 1000)]
        ∧ expandedVal (fun n => if n = 0 then [0, 1] else [n]) [(0, 10), (1, 5), (7, 1000)] 0
          = 10 + ((((fun n : ℕ => if n = 0 then [0, 1] else [n]) 0).erase 0).map fun n =>
              (lookupPop [(0, 10), (1, 5), (7, 1000)] n).getD 0).sum
        ∧ (10 : ℤ) ≤ expandedVal (fun n => if n = 0 then [0, 1] else [n])
            [(0, 10), (1, 5), (7, 1000)] 0
        ∧ expandedVal (fun n => if n = 0 then [0, 1] else [n]) [(0, 10), (1, 5)] 0
          = expandedVal (fun n => if n = 0 then [0, 1] else [n]) [(0, 10), (1, 5), (7, 1000)] 0
        ∧ expandedVal (fun n => if n = 0 then [0, 1] else [n]) [(0, 10), (1, 5), (7, 1000)] 0
          = 15) :=
  ⟨⟨by decide, by decide⟩,
    c7_kring_expansion (fun n => if n = 0 then [0, 1] else [n])
      [(0, 10), (1, 5), (7, 1000)] [(0, 10), (1, 5)] 0 10
      (by decide) (by decide) (by decide) (by decide)⟩

/-! ### Non-negativity plumbing for the circulation pipeline -/

theorem factor_of_mkObs {h3 : Option ℕ} {b : Bool} {e : Etapa} {t : String} {o : Obs}
    (h : mkObs h3 b e t = some o) : e.factor_expansion_viaje = some o.factor := by
  unfold mkObs at h
  cases hid : e.id_tarjeta <;> rw [hid] at h
  · simp at h
  · cases hq : e.factor_expansion_viaje <;> rw [hq] at h
    · simp at h
    · cases b
      · simp at h
      · simp only [if_true] at h
        injection h with h2
        rw [← h2]

theorem mutate_factor_exists {f : TripsFrame} {r : Etapa}
    (h : r ∈ (mutateFrame f).rows) :
    ∃ r0 ∈ f.rows, r0.factor_expansion_viaje = r.factor_expansion_viaje := by
  unfold mutateFrame at h
  dsimp only at h
  by_cases hg : f.hasGenero = true
  · rw [if_pos hg] at h
    exact ⟨r, h, rfl⟩
  · rw [if_neg hg] at h
    obtain ⟨r0, hr0, rfl⟩ := List.mem_map.1 h
    exact ⟨r0, hr0, rfl⟩

theorem longObs_factor_nonneg {f : TripsFrame}
    (hf : ∀ r ∈ f.rows, ∀ q : ℚ, r.factor_expansion_viaje = some q → 0 ≤ q) :
    ∀ o ∈ longObs (framePairs f), 0 ≤ o.factor := by
  have hrows : ∀ e ∈ (mutateFrame f).rows, ∀ q : ℚ,
      e.factor_expansion_viaje = some q → 0 ≤ q := by
    intro e he q heq
    obtain ⟨r0, hr0, h0⟩ := mutate_factor_exists he
    exact hf r0 hr0 q (h0.trans heq)
  intro o ho
  unfold longObs at ho
  rcases List.mem_append.1 ho with h | h <;>
    obtain ⟨⟨e, t⟩, hp, hm⟩ := List.mem_filterMap.1 h <;>
    exact hrows e (List.of_mem_zip hp).1 o.factor (factor_of_mkObs hm)

theorem sumFactor_nonneg {obs : List Obs} (hobs : ∀ o ∈ obs, 0 ≤ o.factor)
    (h : ℕ) (t g : String) : 0 ≤ sumFactor obs h t g := by
  unfold sumFactor
  refine sum_nonneg_of_mem _ ?_
  intro x hx
  obtain ⟨o, ho, rfl⟩ := List.mem_map.1 hx
  exact hobs o (List.mem_of_mem_filter ho)

/-! ### Per-stage sum identities -/

theorem distribute_row_identity (w : List WRow) (c : List CRow) :
    ∀ row ∈ distribute_population_to_h3 w c,
      row.hombres_h3 + row.mujeres_h3 = row.total_h3 := by
  intro row hrow
  unfold distribute_population_to_h3 at hrow
  obtain ⟨k, hk, rfl⟩ := List.mem_map.1 hrow
  dsimp only
  ring

theorem circulante_row_le {f : TripsFrame}
    (hf : ∀ r ∈ f.rows, ∀ q : ℚ, r.factor_expansion_viaje = some q → 0 ≤ q) :
    ∀ row ∈ (aggregate_trips_by_h3 f).2,
      row.hombres_circulante + row.mujeres_circulante ≤ row.total_circulante := by
  have hnn : ∀ o ∈ dedupFirst (longObs (framePairs f)), 0 ≤ o.factor :=
    fun o ho => longObs_factor_nonneg hf o (mem_of_mem_dedupFirst ho)
  intro row hrow
  unfold aggregate_trips_by_h3 aggregatePipeline at hrow
  obtain ⟨k, hk, rfl⟩ := List.mem_map.1 hrow
  dsimp only
  have h1 := sumFactor_nonneg hnn k.1 k.2 "hombres_circulante"
  have h2 := sumFactor_nonneg hnn k.1 k.2 "mujeres_circulante"
  have h3 := sumFactor_nonneg hnn k.1 k.2 "otros_circulante"
  refine le_trans (truncToZero_add_le h1 h2) ?_
  exact truncToZero_mono (add_nonneg h1 h2) (le_add_of_nonneg_right h3)

theorem reach_row_le (w : List WRow) (cens : List CRow) (f : TripsFrame)
    (hf : ∀ r ∈ f.rows, ∀ q : ℚ, r.factor_expansion_viaje = some q → 0 ≤ q) :
    ∀ row ∈ integrate_population_data (distribute_population_to_h3 w cens)
        ((aggregate_trips_by_h3 f).2),
      row.hombres_total_reach + row.mujeres_total_reach ≤ row.total_reach := by
  intro row hrow
  unfold integrate_population_data at hrow
  obtain ⟨k, hk, rfl⟩ := List.mem_map.1 hrow
  dsimp only
  have hres : ((findRes (distribute_population_to_h3 w cens) k.1 k.2).map
        PopRow.hombres_h3).getD 0
      + ((findRes (distribute_population_to_h3 w cens) k.1 k.2).map
        PopRow.mujeres_h3).getD 0
      = ((findRes (distribute_population_to_h3 w cens) k.1 k.2).map
        PopRow.total_h3).getD 0 := by
    cases hfind : findRes (distribute_population_to_h3 w cens) k.1 k.2 with
    | none => simp
    | some r =>
      have hmem : r ∈ distribute_population_to_h3 w cens :=
        List.mem_of_find?_eq_some hfind
      simpa using distribute_row_identity w cens r hmem
  have hcirc : ((findCirc ((aggregate_trips_by_h3 f).2) k.1 k.2).map
        PivotRow.hombres_circulante).getD 0
      + ((findCirc ((aggregate_trips_by_h3 f).2) k.1 k.2).map
        PivotRow.mujeres_circulante).getD 0
      ≤ ((findCirc ((aggregate_trips_by_h3 f).2) k.1 k.2).map
        PivotRow.total_circulante).getD 0 := by
    cases hfind : findCirc ((aggregate_trips_by_h3 f).2) k.1 k.2 with
    | none => simp
    | some p =>
      have hmem : p ∈ (aggregate_trips_by_h3 f).2 := List.mem_of_find?_eq_some hfind
      simpa using circulante_row_le hf p hmem
  linarith

/-- C1 counterexample: a circulating-stage output row violates
`male + female == total`.  One rider with unknown gender ("X") and weight
1.0 yields the row (hombres 0, mujeres 0, otros 1, total 1): the total
includes the other/unknown-gender weight, so 0 + 0 ≠ 1. -/
theorem c1_counterexample :
    (aggregate_trips_by_h3
        ⟨[⟨some 1, some 1, some "X", .val 25, none, some 5, false, true⟩], true, true, none⟩).2
      = [⟨5, "25 A 29", 0, 0, 1, 1⟩]
      ∧ (0 : ℤ) + 0 ≠ 1 := by
  refine ⟨?_, by decide⟩
  have hded : dedupFirst (longObs (framePairs
      ⟨[⟨some 1, some 1, some "X", .val 25, none, some 5, false, true⟩], true, true, none⟩))
      = [⟨some 5, 1, 1, some "X", "25 A 29"⟩] := by decide
  have hkeys : pivotKeys [(⟨some 5, 1, 1, some "X", "25 A 29"⟩ : Obs)]
      = [(5, "25 A 29")] := by decide
  simp [aggregate_trips_by_h3, aggregatePipeline, hded, hkeys, sumFactor_cons,
    sumFactor_nil, genero_norm]
  norm_num [truncToZero]

/-- C1 amended: `male + female == total` holds exactly, by construction,
for every residential row; for circulating rows the total additionally
counts other/unknown-gender weight and each column is truncated
independently, so (for non-negative expansion factors) only
`male + female ≤ total` holds, and reach rows inherit
`male_reach + female_reach ≤ total_reach`. -/
theorem c1_sum_invariant_amended (w : List WRow) (cens : List CRow) (f : TripsFrame)
    (hf : ∀ r ∈ f.rows, ∀ q : ℚ, r.factor_expansion_viaje = some q → 0 ≤ q)
    (rowR : PopRow) (hR : rowR ∈ distribute_population_to_h3 w cens)
    (rowC : PivotRow) (hC : rowC ∈ (aggregate_trips_by_h3 f).2)
    (rowI : ReachRow)
    (hI : rowI ∈ integrate_population_data (distribute_population_to_h3 w cens)
      ((aggregate_trips_by_h3 f).2)) :
    rowR.hombres_h3 + rowR.mujeres_h3 = rowR.total_h3
      ∧ rowC.hombres_circulante + rowC.mujeres_circulante ≤ rowC.total_circulante
      ∧ rowI.hombres_total_reach + rowI.mujeres_total_reach ≤ rowI.total_reach :=
  ⟨distribute_row_identity w cens rowR hR, circulante_row_le hf rowC hC,
    reach_row_le w cens f hf rowI hI⟩

/-- Witness for the amended C1: one census unit fully inside one cell
(residential row 5 + 5 = 10), one unknown-gender rider (circulating row
0 + 0 ≤ 1), and their integration (reach row 5 + 5 ≤ 10). -/
theorem c1_sum_invariant_amended_witness :
    ((⟨5, "00 A 04", 10, 5, 5⟩ : PopRow)
        ∈ distribute_population_to_h3 [⟨5, 1, 1⟩] [⟨1, "00 A 04", 10, 5, 5⟩])
      ∧ ((⟨5, "25 A 29", 0, 0, 1, 1⟩ : PivotRow)
        ∈ (aggregate_trips_by_h3
            ⟨[⟨some 1, some 1, some "X", .val 25, none, some 5, false, true⟩],
             true, true, none⟩).2)
      ∧ ((⟨5, "00 A 04", 5, 5, 10, 0, 0, 0, 0, 5, 5, 10⟩ : ReachRow)
        ∈ integrate_population_data
            (distribute_population_to_h3 [⟨5, 1, 1⟩] [⟨1, "00 A 04", 10, 5, 5⟩])
            ((aggregate_trips_by_h3
              ⟨[⟨some 1, some 1, some "X", .val 25, none, some 5, false, true⟩],
               true, true, none⟩).2))
      ∧ ((5 : ℤ) + 5 = 10 ∧ (0 : ℤ) + 0 ≤ 1 ∧ (5 : ℤ) + 5 ≤ 10) := by
  have hm : mergedRows [⟨5, 1, 1⟩] [⟨1, "00 A 04", 10, 5, 5⟩]
      = [(⟨5, 1, 1⟩, ⟨1, "00 A 04", 10, 5, 5⟩)] := by decide
  have hkeys2 : ((mergedRows [⟨5, 1, 1⟩] [⟨1, "00 A 04", 10, 5, 5⟩]).map
      fun p => (p.1.h3_index, p.2.tramo_edad)).dedup = [(5, "00 A 04")] := by decide
  have hps_t : partSum [⟨5, 1, 1⟩] [⟨1, "00 A 04", 10, 5, 5⟩] (5, "00 A 04")
      CRow.total_conteo = 10 := by
    simp [partSum, hm, partSumL_cons, partSumL_nil]
  have hps_h : partSum [⟨5, 1, 1⟩] [⟨1, "00 A 04", 10, 5, 5⟩] (5, "00 A 04")
      CRow.hombres = 5 := by
    simp [partSum, hm, partSumL_cons, partSumL_nil]
  have hdist : distribute_population_to_h3 [⟨5, 1, 1⟩] [⟨1, "00 A 04", 10, 5, 5⟩]
      = [⟨5, "00 A 04", 10, 5, 5⟩] := by
    simp [distribute_population_to_h3, hkeys2, hps_t, hps_h]
    norm_num [roundHalfEven]
  have hded : dedupFirst (longObs (framePairs
      ⟨[⟨some 1, some 1, some "X", .val 25, none, some 5, false, true⟩], true, true, none⟩))
      = [⟨some 5, 1, 1, some "X", "25 A 29"⟩] := by decide
  have hkeys : pivotKeys [(⟨some 5, 1, 1, some "X", "25 A 29"⟩ : Obs)]
      = [(5, "25 A 29")] := by decide
  have hagg : (aggregate_trips_by_h3
      ⟨[⟨some 1, some 1, some "X", .val 25, none, some 5, false, true⟩], true, true, none⟩).2
      = [⟨5, "25 A 29", 0, 0, 1, 1⟩] := by
    simp [aggregate_trips_by_h3, aggregatePipeline, hded, hkeys, sumFactor_cons,
      sumFactor_nil, genero_norm]
    norm_num [truncToZero]
  have hint : integrate_population_data [⟨5, "00 A 04", 10, 5, 5⟩]
      [⟨5, "25 A 29", 0, 0, 1, 1⟩]
      = [⟨5, "00 A 04", 5, 5, 10, 0, 0, 0, 0, 5, 5, 10⟩,
         ⟨5, "25 A 29", 0, 0, 0, 0, 0, 1, 1, 0, 0, 1⟩] := by decide
  have hf1 : ∀ r ∈ ([⟨some 1, some 1, some "X", .val 25, none, some 5, false, true⟩]
      : List Etapa), ∀ q : ℚ, r.factor_expansion_viaje = some q → 0 ≤ q := by
    intro r hr q heq
    simp only [List.mem_singleton] at hr
    subst hr
    simp only [Option.some.injEq] at heq
    rw [← heq]
    norm_num
  have hR : (⟨5, "00 A 04", 10, 5, 5⟩ : PopRow)
      ∈ distribute_population_to_h3 [⟨5, 1, 1⟩] [⟨1, "00 A 04", 10, 5, 5⟩] := by
    rw [hdist]
    decide
  have hC : (⟨5, "25 A 29", 0, 0, 1, 1⟩ : PivotRow)
      ∈ (aggregate_trips_by_h3
        ⟨[⟨some 1, some 1, some "X", .val 25, none, some 5, false, true⟩],
         true, true, none⟩).2 := by
    rw [hagg]
    decide
  have hI : (⟨5, "00 A 04", 5, 5, 10, 0, 0, 0, 0, 5, 5, 10⟩ : ReachRow)
      ∈ integrate_population_data
        (distribute_population_to_h3 [⟨5, 1, 1⟩] [⟨1, "00 A 04", 10, 5, 5⟩])
        ((aggregate_trips_by_h3
          ⟨[⟨some 1, some 1, some "X", .val 25, none, some 5, false, true⟩],
           true, true, none⟩).2) := by
    rw [hdist, hagg, hint]
    decide
  exact ⟨hR, hC, hI,
    c1_sum_invariant_amended [⟨5, 1, 1⟩] [⟨1, "00 A 04", 10, 5, 5⟩]
      ⟨[⟨some 1, some 1, some "X", .val 25, none, some 5, false, true⟩], true, true, none⟩
      hf1 _ hR _ hC _ hI⟩

